import Mathlib

/-!
Shallow embedding of the Mali kbase Job Manager low-level APIs
(drivers/gpu/vithar/kbase/src/common/mali_kbase_jm.h) and proofs about them.

Modelling conventions:
- `u8` fields are modelled as `Nat` with explicit `% 256` wherever the C code
  can overflow or underflow an 8-bit value.
- A `kbase_jd_atom *` pointer is modelled as `Option Nat` (`none` = `NULL`,
  `some a` = a pointer to the atom with identity `a`).
- `OSK_ASSERT` is a fatal check: a function containing one returns `Option _`,
  with `none` meaning the assertion fired (no defined post-state).
- The compile-time switch `BASE_HW_ISSUE_5713` is modelled as an explicit
  `Bool` parameter, so both revisions are present in one development.
- Functions that mutate a `kbase_jm_slot *` in C take the slot and return the
  updated slot (paired with the C return value where there is one).
-/

/-- The device-wide reset flag; modelled from the spec (the enum lives outside
src/): tri-state not-pending / pending / in-progress. Only the not-pending vs
other distinction is read by the code in src/. -/
inductive KbaseResetState where
  | NOT_PENDING
  | PENDING
  | IN_PROGRESS
deriving DecidableEq, Repr

/-- An atom identity; the core treats atoms as opaque tokens. -/
abbrev kbase_jd_atom : Type := Nat

/-- A kbase context handle; opaque to all code in src/ (it is only threaded
through to the register-read collaborator). -/
def kbase_context : Type := Unit

/-- Modelled from the spec: the fixed submit-slot ring capacity
`BASE_JM_SUBMIT_SLOTS` (the spec's CAP) is defined outside src/. The spec
fixes only that it is a small constant whose mask `CAP - 1` is used for
wrap-around arithmetic, hence a power of two; we use the driver value 16. -/
def BASE_JM_SUBMIT_SLOTS : Nat := 16

/-- Modelled from the spec: the wrap-around mask, `CAP - 1`. -/
def BASE_JM_SUBMIT_SLOTS_MASK : Nat := BASE_JM_SUBMIT_SLOTS - 1

/-- `x & BASE_JM_SUBMIT_SLOTS_MASK`, the index-wrapping operation of the C
code. -/
def jmMask (x : Nat) : Nat := x &&& BASE_JM_SUBMIT_SLOTS_MASK

/-- A wrapped index as an index into the `submitted` ring. -/
def jmPos (x : Nat) : Fin BASE_JM_SUBMIT_SLOTS :=
  ⟨jmMask x, by
    have h : jmMask x ≤ BASE_JM_SUBMIT_SLOTS_MASK := Nat.and_le_right
    simp only [BASE_JM_SUBMIT_SLOTS, BASE_JM_SUBMIT_SLOTS_MASK] at h ⊢
    omega⟩

/-- Per-slot state: the `submitted` ring of atom pointers, the `u8` head and
count, and the PRLAM-5713 soft-stop block flag (present unconditionally in the
model; it is only read when the erratum parameter is true). -/
structure kbase_jm_slot where
  submitted : Fin BASE_JM_SUBMIT_SLOTS → Option kbase_jd_atom
  submitted_head : Nat
  submitted_nr : Nat
  submission_blocked_for_soft_stop : Bool

deriving instance DecidableEq for kbase_jm_slot

/-- Device state as read by the code in src/: the slot count, the reset flag
(read via `osk_atomic_get`), the per-slot states, and the hardware register
file. Modelled from the spec: register access is keyed by (slot index,
register selector); the `JOB_SLOT_REG` address computation and the register
file live outside src/, so the device carries one value per (slot, selector)
for the two selectors the code reads. -/
structure kbase_device where
  nr_job_slots : Nat
  reset_gpu : KbaseResetState
  jm_slots : Nat → kbase_jm_slot
  regJSnCommandNext : Nat → Nat
  regJSnCommand : Nat → Nat

/-- The two job-slot register selectors read by src/. -/
inductive JSnRegSelector where
  | JSn_COMMAND
  | JSn_COMMAND_NEXT
deriving DecidableEq, Repr

/-- Modelled from the spec: `kbase_reg_read(kbdev, JOB_SLOT_REG(js, sel), kctx)`
keyed by (slot index, register selector); the context argument does not affect
the value read. -/
def kbase_reg_read (kbdev : kbase_device) (js : Nat) (sel : JSnRegSelector)
    (_kctx : kbase_context) : Nat :=
  match sel with
  | .JSn_COMMAND_NEXT => kbdev.regJSnCommandNext js
  | .JSn_COMMAND => kbdev.regJSnCommand js

/-- `kbasep_jm_is_js_free`: the slot-free register predicate.
`OSK_ASSERT(0 <= js && js < kbdev->nr_job_slots)` is the `none` case. On
revisions without BASE_HW_ISSUE_5713 it is `!read(JSn_COMMAND_NEXT)`; with the
erratum it is `!read(JSn_COMMAND_NEXT) && !read(JSn_COMMAND)`. -/
def kbasep_jm_is_js_free (hw5713 : Bool) (kbdev : kbase_device) (js : Nat)
    (kctx : kbase_context) : Option Bool :=
  if js < kbdev.nr_job_slots then
    if hw5713 then
      some ((kbase_reg_read kbdev js .JSn_COMMAND_NEXT kctx == 0)
            && (kbase_reg_read kbdev js .JSn_COMMAND kctx == 0))
    else
      some (kbase_reg_read kbdev js .JSn_COMMAND_NEXT kctx == 0)
  else none

/-- `kbasep_jm_is_submit_slots_free`: the admission check. Refuses whenever
the reset flag is not `KBASE_RESET_GPU_NOT_PENDING`; otherwise (with the
erratum) requires the slot not blocked for soft-stop, then (both revisions)
the register predicate and `submitted_nr < BASE_JM_SUBMIT_SLOTS - 2`. The C
`&&` short-circuit is preserved: under the erratum, a blocked slot returns
false without reading the registers. -/
def kbasep_jm_is_submit_slots_free (hw5713 : Bool) (kbdev : kbase_device)
    (js : Nat) (kctx : kbase_context) : Option Bool :=
  if js < kbdev.nr_job_slots then
    if kbdev.reset_gpu ≠ KbaseResetState.NOT_PENDING then
      -- The GPU is being reset - so prevent submission
      some false
    else
      if hw5713 then
        if (kbdev.jm_slots js).submission_blocked_for_soft_stop then
          some false
        else
          match kbasep_jm_is_js_free hw5713 kbdev js kctx with
          | none => none
          | some free =>
            some (free && decide ((kbdev.jm_slots js).submitted_nr
                                   < BASE_JM_SUBMIT_SLOTS - 2))
      else
        match kbasep_jm_is_js_free hw5713 kbdev js kctx with
        | none => none
        | some free =>
          some (free && decide ((kbdev.jm_slots js).submitted_nr
                                 < BASE_JM_SUBMIT_SLOTS - 2))
  else none

/-- `kbasep_jm_init_submit_slot`: zeroes the count and head; under the erratum
also clears the soft-stop block flag. The ring contents are NOT cleared. -/
def kbasep_jm_init_submit_slot (hw5713 : Bool) (slot : kbase_jm_slot) :
    kbase_jm_slot :=
  { slot with
    submitted_nr := 0
    submitted_head := 0
    submission_blocked_for_soft_stop :=
      if hw5713 then false else slot.submission_blocked_for_soft_stop }

/-- `kbasep_jm_peek_idx_submit_slot`: `OSK_ASSERT(idx < BASE_JM_SUBMIT_SLOTS)`
(note: the capacity, not the occupancy), then reads the ring at
`(submitted_head + idx) & MASK` without any mutation (the unchanged slot is
returned alongside the value to make that explicit). -/
def kbasep_jm_peek_idx_submit_slot (slot : kbase_jm_slot) (idx : Nat) :
    Option (Option kbase_jd_atom × kbase_jm_slot) :=
  if idx < BASE_JM_SUBMIT_SLOTS then
    some (slot.submitted (jmPos (slot.submitted_head + idx)), slot)
  else none

/-- `kbasep_jm_dequeue_submit_slot` (pop front): reads the ring at
`submitted_head & MASK`, nulls that entry ("Just to catch bugs..."),
`OSK_ASSERT(katom)` (fires exactly when the entry was NULL), then advances the
head by one under the mask and decrements the `u8` count (wrapping mod 256). -/
def kbasep_jm_dequeue_submit_slot (slot : kbase_jm_slot) :
    Option (kbase_jd_atom × kbase_jm_slot) :=
  match slot.submitted (jmPos slot.submitted_head) with
  | none => none
  | some katom =>
    some (katom,
      { slot with
        submitted := Function.update slot.submitted (jmPos slot.submitted_head)
                       none
        submitted_head := jmMask (slot.submitted_head + 1)
        submitted_nr := (slot.submitted_nr + 255) % 256 })

/-- `kbasep_jm_dequeue_tail_submit_slot` (pop back / unsubmit): decrements the
`u8` count (no emptiness check: at 0 it wraps to 255), then returns the ring
entry at `(submitted_head + new count) & MASK`. Total: there is no assertion
in this function. -/
def kbasep_jm_dequeue_tail_submit_slot (slot : kbase_jm_slot) :
    Option kbase_jd_atom × kbase_jm_slot :=
  let nr : Nat := (slot.submitted_nr + 255) % 256
  (slot.submitted (jmPos (slot.submitted_head + nr)),
    { slot with submitted_nr := nr })

/-- `kbasep_jm_nr_jobs_submitted`: returns `submitted_nr`. -/
def kbasep_jm_nr_jobs_submitted (slot : kbase_jm_slot) : Nat :=
  slot.submitted_nr

/-- `kbasep_jm_enqueue_submit_slot` (push back): `nr = submitted_nr++` (u8
post-increment, wrapping mod 256), `OSK_ASSERT(nr < BASE_JM_SUBMIT_SLOTS)`,
then writes the atom at `(submitted_head + nr) & MASK`. -/
def kbasep_jm_enqueue_submit_slot (slot : kbase_jm_slot)
    (katom : kbase_jd_atom) : Option kbase_jm_slot :=
  let nr := slot.submitted_nr
  if nr < BASE_JM_SUBMIT_SLOTS then
    some { slot with
           submitted_nr := (nr + 1) % 256
           submitted := Function.update slot.submitted
                          (jmPos (slot.submitted_head + nr)) (some katom) }
  else none

/-- One step of the caller-visible queue interface used to state the counting
invariant: push back of an atom or pop front. -/
inductive JmOp where
  | enq (a : kbase_jd_atom)
  | deqFront
deriving DecidableEq, Repr

/-- Run a sequence of enqueue / front-dequeue operations on a slot; `none` if
any operation hits its fatal assertion. -/
def runJmOps (ops : List JmOp) (slot : kbase_jm_slot) : Option kbase_jm_slot :=
  match ops with
  | [] => some slot
  | JmOp.enq a :: rest =>
    (kbasep_jm_enqueue_submit_slot slot a).bind (runJmOps rest)
  | JmOp.deqFront :: rest =>
    (kbasep_jm_dequeue_submit_slot slot).bind (fun p => runJmOps rest p.2)

/-- The sequence respects capacity starting from occupancy `c`: never enqueue
at `BASE_JM_SUBMIT_SLOTS` atoms, never front-dequeue an empty queue. -/
def capRespecting (c : Nat) (ops : List JmOp) : Bool :=
  match ops with
  | [] => true
  | JmOp.enq _ :: rest =>
    decide (c < BASE_JM_SUBMIT_SLOTS) && capRespecting (c + 1) rest
  | JmOp.deqFront :: rest => decide (0 < c) && capRespecting (c - 1) rest

/-- Number of enqueue operations in a sequence. -/
def nEnq (ops : List JmOp) : Nat :=
  match ops with
  | [] => 0
  | JmOp.enq _ :: rest => nEnq rest + 1
  | JmOp.deqFront :: rest => nEnq rest

/-- Number of front-dequeue operations in a sequence. -/
def nDeq (ops : List JmOp) : Nat :=
  match ops with
  | [] => 0
  | JmOp.enq _ :: rest => nDeq rest
  | JmOp.deqFront :: rest => nDeq rest + 1

/-- The slot invariant maintained by the enqueue / front-dequeue interface:
the count never exceeds the ring capacity and every occupied ring position
holds a non-NULL atom pointer. -/
def SlotInv (slot : kbase_jm_slot) : Prop :=
  slot.submitted_nr ≤ BASE_JM_SUBMIT_SLOTS ∧
  ∀ i, i < slot.submitted_nr →
    slot.submitted (jmPos (slot.submitted_head + i)) ≠ none

/-- A slot whose ring is fully cleared: empty queue, head 0, not blocked. -/
def exSlotEmpty : kbase_jm_slot :=
  { submitted := fun _ => none
    submitted_head := 0
    submitted_nr := 0
    submission_blocked_for_soft_stop := false }

/-- A slot with an empty queue (count 0) but stale non-NULL ring contents, as
left behind by initialization (which does not clear the ring) or by a
tail-dequeue (which does not null the popped entry). -/
def exSlotStale : kbase_jm_slot :=
  { submitted := fun _ => some 7
    submitted_head := 0
    submitted_nr := 0
    submission_blocked_for_soft_stop := false }

/-- A slot holding two atoms, 3 at the head position and 4 behind it. -/
def exSlotOne : kbase_jm_slot :=
  { submitted := fun p => if p.val = 0 then some 3 else
                          if p.val = 1 then some 4 else none
    submitted_head := 0
    submitted_nr := 2
    submission_blocked_for_soft_stop := false }

/-- The slot state produced by enqueuing atom 5 onto `exSlotEmpty`. -/
def exSlotEnq5 : kbase_jm_slot :=
  { exSlotEmpty with
    submitted_nr := (exSlotEmpty.submitted_nr + 1) % 256
    submitted := Function.update exSlotEmpty.submitted
      (jmPos (exSlotEmpty.submitted_head + exSlotEmpty.submitted_nr))
      (some 5) }

/-- The slot state produced by front-dequeuing `exSlotStale` (the stale entry
at position 0 is consumed and the u8 count wraps to 255). -/
def exSlotStaleDeq : kbase_jm_slot :=
  { exSlotStale with
    submitted := Function.update exSlotStale.submitted
      (jmPos exSlotStale.submitted_head) none
    submitted_head := jmMask (exSlotStale.submitted_head + 1)
    submitted_nr := (exSlotStale.submitted_nr + 255) % 256 }

/-- A one-slot device with a pending reset, an empty queue and empty registers. -/
def exDevReset : kbase_device :=
  { nr_job_slots := 1
    reset_gpu := KbaseResetState.PENDING
    jm_slots := fun _ => exSlotEmpty
    regJSnCommandNext := fun _ => 0
    regJSnCommand := fun _ => 0 }

/-- A one-slot device with no reset pending, an empty queue and empty
registers, but the soft-stop block flag set. -/
def exDevBlocked : kbase_device :=
  { nr_job_slots := 1
    reset_gpu := KbaseResetState.NOT_PENDING
    jm_slots := fun _ =>
      { exSlotEmpty with submission_blocked_for_soft_stop := true }
    regJSnCommandNext := fun _ => 0
    regJSnCommand := fun _ => 0 }

/-- A one-slot device with no reset pending, empty registers, not blocked, and
`submitted_nr = BASE_JM_SUBMIT_SLOTS - 2`. -/
def exDevMargin : kbase_device :=
  { nr_job_slots := 1
    reset_gpu := KbaseResetState.NOT_PENDING
    jm_slots := fun _ => { exSlotEmpty with submitted_nr := 14 }
    regJSnCommandNext := fun _ => 0
    regJSnCommand := fun _ => 0 }

/-- A concrete capacity-respecting operation sequence: two enqueues and one
front-dequeue. -/
def exOps : List JmOp := [JmOp.enq 1, JmOp.enq 2, JmOp.deqFront]

theorem jmMask_eq_mod (x : Nat) : jmMask x = x % 16 :=
  Nat.and_pow_two_sub_one_eq_mod x 4

theorem jmPos_eq_mod (x : Nat) :
    jmPos x = ⟨x % BASE_JM_SUBMIT_SLOTS, Nat.mod_lt x (by decide)⟩ := by
  apply Fin.ext
  simp [jmPos, jmMask_eq_mod, BASE_JM_SUBMIT_SLOTS]

theorem jmPos_val (x : Nat) : (jmPos x).val = x % 16 := by
  simp [jmPos, jmMask_eq_mod]

theorem dequeue_tail_fst (slot : kbase_jm_slot) :
    (kbasep_jm_dequeue_tail_submit_slot slot).1 =
      slot.submitted
        (jmPos (slot.submitted_head + (slot.submitted_nr + 255) % 256)) := rfl

theorem dequeue_tail_snd_nr (slot : kbase_jm_slot) :
    (kbasep_jm_dequeue_tail_submit_slot slot).2.submitted_nr =
      (slot.submitted_nr + 255) % 256 := rfl

theorem dequeue_tail_snd_head (slot : kbase_jm_slot) :
    (kbasep_jm_dequeue_tail_submit_slot slot).2.submitted_head =
      slot.submitted_head := rfl

theorem dequeue_tail_snd_submitted (slot : kbase_jm_slot) :
    (kbasep_jm_dequeue_tail_submit_slot slot).2.submitted =
      slot.submitted := rfl

/-- Claim C1: for every device state, if the device-wide reset flag is anything
other than not-pending, `kbasep_jm_is_submit_slots_free` returns false,
regardless of the slot's queue occupancy, register contents, or soft-stop
flag (both hardware revisions). -/
theorem submit_slots_free_false_of_reset (hw5713 : Bool) (kbdev : kbase_device)
    (js : Nat) (kctx : kbase_context) (hjs : js < kbdev.nr_job_slots)
    (hr : kbdev.reset_gpu ≠ KbaseResetState.NOT_PENDING) :
    kbasep_jm_is_submit_slots_free hw5713 kbdev js kctx = some false := by
  unfold kbasep_jm_is_submit_slots_free
  simp [hjs, hr]

theorem submit_slots_free_false_of_reset_witness :
    0 < exDevReset.nr_job_slots ∧
    exDevReset.reset_gpu ≠ KbaseResetState.NOT_PENDING ∧
    kbasep_jm_is_submit_slots_free false exDevReset 0 () = some false :=
  ⟨by decide, by decide,
    submit_slots_free_false_of_reset false exDevReset 0 () (by decide)
      (by decide)⟩

/-- Claim C2: with the reset flag not-pending and no soft-stop block, the
admission check returns true only if `submitted_nr < BASE_JM_SUBMIT_SLOTS - 2`;
in particular it returns false whenever `submitted_nr = BASE_JM_SUBMIT_SLOTS - 2`,
even if the hardware registers report empty (both hardware revisions). -/
theorem submit_slots_free_margin (hw5713 : Bool) (kbdev : kbase_device)
    (js : Nat) (kctx : kbase_context) (hjs : js < kbdev.nr_job_slots)
    (hr : kbdev.reset_gpu = KbaseResetState.NOT_PENDING)
    (hb : (kbdev.jm_slots js).submission_blocked_for_soft_stop = false) :
    (kbasep_jm_is_submit_slots_free hw5713 kbdev js kctx = some true →
      (kbdev.jm_slots js).submitted_nr < BASE_JM_SUBMIT_SLOTS - 2) ∧
    ((kbdev.jm_slots js).submitted_nr = BASE_JM_SUBMIT_SLOTS - 2 →
      kbasep_jm_is_submit_slots_free hw5713 kbdev js kctx = some false) := by
  unfold kbasep_jm_is_submit_slots_free kbasep_jm_is_js_free
  constructor
  · intro h
    cases hw5713 <;> simp [hjs, hr, hb, BASE_JM_SUBMIT_SLOTS] at h ⊢ <;> omega
  · intro h
    cases hw5713 <;> simp [hjs, hr, hb, h]

theorem submit_slots_free_margin_witness :
    0 < exDevMargin.nr_job_slots ∧
    exDevMargin.reset_gpu = KbaseResetState.NOT_PENDING ∧
    (exDevMargin.jm_slots 0).submission_blocked_for_soft_stop = false ∧
    (exDevMargin.jm_slots 0).submitted_nr = BASE_JM_SUBMIT_SLOTS - 2 ∧
    kbasep_jm_is_submit_slots_free false exDevMargin 0 () = some false :=
  ⟨by decide, by decide, by decide, by decide,
    (submit_slots_free_margin false exDevMargin 0 () (by decide) (by decide)
      (by decide)).2 (by decide)⟩

/-- Claim C3: on unaffected revisions `kbasep_jm_is_js_free` holds iff the
slot's JSn_COMMAND_NEXT register reads 0; on revisions with BASE_HW_ISSUE_5713
it holds iff both JSn_COMMAND_NEXT and JSn_COMMAND read 0 — a strengthening of
the same predicate (the erratum result implies the unaffected one). -/
theorem is_js_free_register_spec (kbdev : kbase_device) (js : Nat)
    (kctx : kbase_context) (hjs : js < kbdev.nr_job_slots) :
    (kbasep_jm_is_js_free false kbdev js kctx = some true ↔
      kbdev.regJSnCommandNext js = 0) ∧
    (kbasep_jm_is_js_free true kbdev js kctx = some true ↔
      (kbdev.regJSnCommandNext js = 0 ∧ kbdev.regJSnCommand js = 0)) ∧
    (kbasep_jm_is_js_free true kbdev js kctx = some true →
      kbasep_jm_is_js_free false kbdev js kctx = some true) := by
  unfold kbasep_jm_is_js_free kbase_reg_read
  simp [hjs]
  tauto

theorem is_js_free_register_spec_witness :
    0 < exDevReset.nr_job_slots ∧
    kbasep_jm_is_js_free false exDevReset 0 () = some true ∧
    kbasep_jm_is_js_free true exDevReset 0 () = some true :=
  ⟨by decide,
    (is_js_free_register_spec exDevReset 0 () (by decide)).1.mpr (by decide),
    (is_js_free_register_spec exDevReset 0 () (by decide)).2.1.mpr
      ⟨by decide, by decide⟩⟩

/-- Claim C9: on revisions with the soft-stop erratum, a slot whose
blocked-for-soft-stop flag is set is refused by the admission check, even when
the queue is empty, the registers read empty and no reset is pending (the
witness instantiates exactly that state). -/
theorem submit_slots_free_false_of_blocked (kbdev : kbase_device) (js : Nat)
    (kctx : kbase_context) (hjs : js < kbdev.nr_job_slots)
    (hb : (kbdev.jm_slots js).submission_blocked_for_soft_stop = true) :
    kbasep_jm_is_submit_slots_free true kbdev js kctx = some false := by
  unfold kbasep_jm_is_submit_slots_free
  by_cases hr : kbdev.reset_gpu = KbaseResetState.NOT_PENDING <;>
    simp [hjs, hr, hb]

theorem submit_slots_free_false_of_blocked_witness :
    0 < exDevBlocked.nr_job_slots ∧
    (exDevBlocked.jm_slots 0).submission_blocked_for_soft_stop = true ∧
    (exDevBlocked.jm_slots 0).submitted_nr = 0 ∧
    exDevBlocked.regJSnCommandNext 0 = 0 ∧
    exDevBlocked.regJSnCommand 0 = 0 ∧
    exDevBlocked.reset_gpu = KbaseResetState.NOT_PENDING ∧
    kbasep_jm_is_submit_slots_free true exDevBlocked 0 () = some false :=
  ⟨by decide, by decide, by decide, by decide, by decide, by decide,
    submit_slots_free_false_of_blocked exDevBlocked 0 () (by decide)
      (by decide)⟩

/-- Claim C4: for every slot state with `submitted_nr < BASE_JM_SUBMIT_SLOTS`,
enqueuing atom `a` and then dequeuing from the back returns `a` and restores
`submitted_nr` and `submitted_head` to their values before the enqueue. -/
theorem enqueue_then_dequeue_tail (slot : kbase_jm_slot) (a : kbase_jd_atom)
    (h : slot.submitted_nr < BASE_JM_SUBMIT_SLOTS) :
    ∃ s₁, kbasep_jm_enqueue_submit_slot slot a = some s₁ ∧
      (kbasep_jm_dequeue_tail_submit_slot s₁).1 = some a ∧
      (kbasep_jm_dequeue_tail_submit_slot s₁).2.submitted_nr =
        slot.submitted_nr ∧
      (kbasep_jm_dequeue_tail_submit_slot s₁).2.submitted_head =
        slot.submitted_head := by
  have h16 : slot.submitted_nr < 16 := by
    simpa [BASE_JM_SUBMIT_SLOTS] using h
  have hnr1 : (slot.submitted_nr + 1) % 256 = slot.submitted_nr + 1 :=
    Nat.mod_eq_of_lt (by omega)
  have hnr2 : (slot.submitted_nr + 1 + 255) % 256 = slot.submitted_nr := by
    omega
  refine ⟨{ slot with
            submitted_nr := (slot.submitted_nr + 1) % 256
            submitted := Function.update slot.submitted
              (jmPos (slot.submitted_head + slot.submitted_nr)) (some a) },
          ?_, ?_, ?_, ?_⟩
  · simp [kbasep_jm_enqueue_submit_slot, h]
  · rw [dequeue_tail_fst]
    show Function.update slot.submitted
        (jmPos (slot.submitted_head + slot.submitted_nr)) (some a)
        (jmPos (slot.submitted_head +
          ((slot.submitted_nr + 1) % 256 + 255) % 256)) = some a
    rw [hnr1, hnr2]
    exact Function.update_same _ _ _
  · rw [dequeue_tail_snd_nr]
    show ((slot.submitted_nr + 1) % 256 + 255) % 256 = slot.submitted_nr
    rw [hnr1, hnr2]
  · rw [dequeue_tail_snd_head]

theorem enqueue_then_dequeue_tail_witness :
    exSlotEmpty.submitted_nr < BASE_JM_SUBMIT_SLOTS ∧
    (kbasep_jm_enqueue_submit_slot exSlotEmpty 9).map
      (fun s₁ => ((kbasep_jm_dequeue_tail_submit_slot s₁).1,
        (kbasep_jm_dequeue_tail_submit_slot s₁).2.submitted_nr,
        (kbasep_jm_dequeue_tail_submit_slot s₁).2.submitted_head))
      = some (some 9, exSlotEmpty.submitted_nr, exSlotEmpty.submitted_head) := by
  refine ⟨by decide, ?_⟩
  obtain ⟨s₁, h1, h2, h3, h4⟩ :=
    enqueue_then_dequeue_tail exSlotEmpty 9 (by decide)
  rw [h1]
  simp [h2, h3, h4]

/-- Claim C5, amended: the peek operation fails exactly when
`idx ≥ BASE_JM_SUBMIT_SLOTS` (its assertion checks the capacity bound, not the
occupancy); for every `idx < submitted_nr ≤ BASE_JM_SUBMIT_SLOTS` it returns
the element at `(submitted_head + idx) mod BASE_JM_SUBMIT_SLOTS` and leaves
the slot state (ring, head, count) untouched. -/
theorem peek_idx_spec (slot : kbase_jm_slot) (idx : Nat)
    (h : idx < slot.submitted_nr)
    (hcap : slot.submitted_nr ≤ BASE_JM_SUBMIT_SLOTS) :
    kbasep_jm_peek_idx_submit_slot slot idx =
      some (slot.submitted
              ⟨(slot.submitted_head + idx) % BASE_JM_SUBMIT_SLOTS,
                Nat.mod_lt _ (by decide)⟩,
            slot) := by
  have hlt : idx < BASE_JM_SUBMIT_SLOTS := lt_of_lt_of_le h hcap
  unfold kbasep_jm_peek_idx_submit_slot
  rw [if_pos hlt, jmPos_eq_mod]

theorem peek_idx_spec_witness :
    (1 : Nat) < exSlotOne.submitted_nr ∧
    exSlotOne.submitted_nr ≤ BASE_JM_SUBMIT_SLOTS ∧
    kbasep_jm_peek_idx_submit_slot exSlotOne 1 =
      some (exSlotOne.submitted
              ⟨(exSlotOne.submitted_head + 1) % BASE_JM_SUBMIT_SLOTS,
                Nat.mod_lt _ (by decide)⟩,
            exSlotOne) :=
  ⟨by decide, by decide, peek_idx_spec exSlotOne 1 (by decide) (by decide)⟩

/-- Claim C5, counterexample to the claim as stated: on a slot with
`submitted_nr = 0` (so offset 0 is out of the claimed range), the peek at
offset 0 does not fail — it returns the stale ring entry. -/
theorem peek_idx_cex :
    0 ≥ exSlotStale.submitted_nr ∧
    kbasep_jm_peek_idx_submit_slot exSlotStale 0 ≠ none := by
  constructor
  · decide
  · decide

/-- Claim C6, amended: the front-dequeue fails exactly when the ring entry at
`submitted_head` is NULL — an empty queue does not guarantee this, since
neither initialization nor the tail-dequeue clears ring entries. When the head
entry holds atom `a` (and `0 < submitted_nr ≤ BASE_JM_SUBMIT_SLOTS`), it
returns `a`, clears that entry, leaves every other entry unchanged, advances
`submitted_head` to `(submitted_head + 1) mod BASE_JM_SUBMIT_SLOTS`, and
decrements `submitted_nr` by one. -/
theorem dequeue_front_spec (slot : kbase_jm_slot)
    (hc : 0 < slot.submitted_nr)
    (hcap : slot.submitted_nr ≤ BASE_JM_SUBMIT_SLOTS) :
    (slot.submitted (jmPos slot.submitted_head) = none →
      kbasep_jm_dequeue_submit_slot slot = none) ∧
    (∀ a, slot.submitted (jmPos slot.submitted_head) = some a →
      ∃ s', kbasep_jm_dequeue_submit_slot slot = some (a, s') ∧
        s'.submitted (jmPos slot.submitted_head) = none ∧
        (∀ p, p ≠ jmPos slot.submitted_head →
          s'.submitted p = slot.submitted p) ∧
        s'.submitted_head =
          (slot.submitted_head + 1) % BASE_JM_SUBMIT_SLOTS ∧
        s'.submitted_nr = slot.submitted_nr - 1) := by
  have hcap16 : slot.submitted_nr ≤ 16 := by
    simpa [BASE_JM_SUBMIT_SLOTS] using hcap
  constructor
  · intro hnone
    unfold kbasep_jm_dequeue_submit_slot
    rw [hnone]
  · intro a ha
    refine ⟨{ slot with
              submitted := Function.update slot.submitted
                             (jmPos slot.submitted_head) none
              submitted_head := jmMask (slot.submitted_head + 1)
              submitted_nr := (slot.submitted_nr + 255) % 256 },
            ?_, ?_, ?_, ?_, ?_⟩
    · unfold kbasep_jm_dequeue_submit_slot
      rw [ha]
    · exact Function.update_same _ _ _
    · intro p hp
      exact Function.update_noteq hp _ _
    · show jmMask (slot.submitted_head + 1) =
        (slot.submitted_head + 1) % BASE_JM_SUBMIT_SLOTS
      rw [jmMask_eq_mod, BASE_JM_SUBMIT_SLOTS]
    · show (slot.submitted_nr + 255) % 256 = slot.submitted_nr - 1
      omega

theorem dequeue_front_spec_witness :
    0 < exSlotOne.submitted_nr ∧
    exSlotOne.submitted_nr ≤ BASE_JM_SUBMIT_SLOTS ∧
    exSlotOne.submitted (jmPos exSlotOne.submitted_head) = some 3 ∧
    (kbasep_jm_dequeue_submit_slot exSlotOne).map
      (fun p => (p.1, p.2.submitted_nr, p.2.submitted_head))
      = some (3, 1, 1) := by
  refine ⟨by decide, by decide, by decide, ?_⟩
  obtain ⟨s', h1, _, _, h4, h5⟩ :=
    (dequeue_front_spec exSlotOne (by decide) (by decide)).2 3 (by decide)
  rw [h1, Option.map_some']
  have hnr : s'.submitted_nr = 1 := by rw [h5]; decide
  have hhd : s'.submitted_head = 1 := by rw [h4]; decide
  rw [hnr, hhd]

/-- Claim C6, counterexample to the claim as stated: starting from a fully
cleared slot, one enqueue followed by one tail-dequeue leaves
`submitted_nr = 0`, yet the front-dequeue on that state does not fail — it
returns the stale atom 7 the tail-dequeue left in the ring. -/
theorem dequeue_front_empty_cex :
    (kbasep_jm_enqueue_submit_slot exSlotEmpty 7).map (fun s₁ =>
      ((kbasep_jm_dequeue_tail_submit_slot s₁).2.submitted_nr,
        (kbasep_jm_dequeue_submit_slot
          (kbasep_jm_dequeue_tail_submit_slot s₁).2).map Prod.fst))
      = some (0, some 7) := by decide

/-- Claim C7, amended: the tail-dequeue never fails — the function contains no
emptiness check. When `0 < submitted_nr ≤ BASE_JM_SUBMIT_SLOTS` it decrements
the count and returns the ring entry at
`(submitted_head + new count) mod BASE_JM_SUBMIT_SLOTS`, leaving the head and
the ring contents unchanged; when `submitted_nr = 0` the `u8` count instead
wraps to 255, silently corrupting the state (see the counterexample). -/
theorem dequeue_tail_nonempty_spec (slot : kbase_jm_slot)
    (hc : 0 < slot.submitted_nr)
    (hcap : slot.submitted_nr ≤ BASE_JM_SUBMIT_SLOTS) :
    (kbasep_jm_dequeue_tail_submit_slot slot).1 =
      slot.submitted
        ⟨(slot.submitted_head + (slot.submitted_nr - 1))
            % BASE_JM_SUBMIT_SLOTS,
          Nat.mod_lt _ (by decide)⟩ ∧
    (kbasep_jm_dequeue_tail_submit_slot slot).2.submitted_nr =
      slot.submitted_nr - 1 ∧
    (kbasep_jm_dequeue_tail_submit_slot slot).2.submitted_head =
      slot.submitted_head ∧
    (kbasep_jm_dequeue_tail_submit_slot slot).2.submitted =
      slot.submitted := by
  have hcap16 : slot.submitted_nr ≤ 16 := by
    simpa [BASE_JM_SUBMIT_SLOTS] using hcap
  have hd : (slot.submitted_nr + 255) % 256 = slot.submitted_nr - 1 := by
    omega
  refine ⟨?_, ?_, dequeue_tail_snd_head slot, dequeue_tail_snd_submitted slot⟩
  · rw [dequeue_tail_fst, hd, jmPos_eq_mod]
  · rw [dequeue_tail_snd_nr, hd]

theorem dequeue_tail_nonempty_spec_witness :
    0 < exSlotOne.submitted_nr ∧
    exSlotOne.submitted_nr ≤ BASE_JM_SUBMIT_SLOTS ∧
    (kbasep_jm_dequeue_tail_submit_slot exSlotOne).1 = some 4 ∧
    (kbasep_jm_dequeue_tail_submit_slot exSlotOne).2.submitted_nr = 1 := by
  have h := dequeue_tail_nonempty_spec exSlotOne (by decide) (by decide)
  refine ⟨by decide, by decide, ?_, ?_⟩
  · rw [h.1]; decide
  · rw [h.2.1]; decide

/-- Claim C7, counterexample to the claim as stated: on a freshly initialized
slot (count 0, stale ring contents), the tail-dequeue does not fail and does
silently corrupt the state — the `u8` count wraps from 0 to 255 and a stale
ring entry is returned as if it were a queued atom. -/
theorem dequeue_tail_empty_cex :
    (kbasep_jm_init_submit_slot true exSlotStale).submitted_nr = 0 ∧
    (kbasep_jm_dequeue_tail_submit_slot
        (kbasep_jm_init_submit_slot true exSlotStale)).2.submitted_nr = 255 ∧
    (kbasep_jm_dequeue_tail_submit_slot
        (kbasep_jm_init_submit_slot true exSlotStale)).1 = some 7 := by
  refine ⟨by decide, by decide, by decide⟩

theorem enqueue_preserves_inv (slot : kbase_jm_slot) (a : kbase_jd_atom)
    (hinv : SlotInv slot) (hc : slot.submitted_nr < BASE_JM_SUBMIT_SLOTS) :
    ∃ s', kbasep_jm_enqueue_submit_slot slot a = some s' ∧
      s'.submitted_nr = slot.submitted_nr + 1 ∧ SlotInv s' := by
  have h16 : slot.submitted_nr < 16 := by
    simpa [BASE_JM_SUBMIT_SLOTS] using hc
  refine ⟨{ slot with
            submitted_nr := (slot.submitted_nr + 1) % 256
            submitted := Function.update slot.submitted
              (jmPos (slot.submitted_head + slot.submitted_nr)) (some a) },
          ?_, ?_, ?_, ?_⟩
  · simp [kbasep_jm_enqueue_submit_slot, hc]
  · show (slot.submitted_nr + 1) % 256 = slot.submitted_nr + 1
    omega
  · show (slot.submitted_nr + 1) % 256 ≤ BASE_JM_SUBMIT_SLOTS
    simp only [BASE_JM_SUBMIT_SLOTS]
    omega
  · intro i hi
    have hi2 : i < (slot.submitted_nr + 1) % 256 := hi
    have hi3 : i < slot.submitted_nr + 1 := by omega
    show Function.update slot.submitted
        (jmPos (slot.submitted_head + slot.submitted_nr)) (some a)
        (jmPos (slot.submitted_head + i)) ≠ none
    by_cases hie : i = slot.submitted_nr
    · subst hie
      rw [Function.update_same]
      simp
    · have hne : jmPos (slot.submitted_head + i) ≠
          jmPos (slot.submitted_head + slot.submitted_nr) := by
        intro hcon
        have hv := congrArg Fin.val hcon
        rw [jmPos_val, jmPos_val] at hv
        omega
      rw [Function.update_noteq hne]
      exact hinv.2 i (by omega)

theorem dequeue_front_preserves_inv (slot : kbase_jm_slot)
    (hinv : SlotInv slot) (hc : 0 < slot.submitted_nr) :
    ∃ a s', kbasep_jm_dequeue_submit_slot slot = some (a, s') ∧
      s'.submitted_nr = slot.submitted_nr - 1 ∧ SlotInv s' := by
  have h16 : slot.submitted_nr ≤ 16 := by
    simpa [BASE_JM_SUBMIT_SLOTS] using hinv.1
  have hhead : slot.submitted (jmPos slot.submitted_head) ≠ none := by
    have h0 := hinv.2 0 hc
    simpa using h0
  obtain ⟨a, ha⟩ := Option.ne_none_iff_exists'.mp hhead
  refine ⟨a, { slot with
               submitted := Function.update slot.submitted
                              (jmPos slot.submitted_head) none
               submitted_head := jmMask (slot.submitted_head + 1)
               submitted_nr := (slot.submitted_nr + 255) % 256 },
          ?_, ?_, ?_, ?_⟩
  · unfold kbasep_jm_dequeue_submit_slot
    rw [ha]
  · show (slot.submitted_nr + 255) % 256 = slot.submitted_nr - 1
    omega
  · show (slot.submitted_nr + 255) % 256 ≤ BASE_JM_SUBMIT_SLOTS
    simp only [BASE_JM_SUBMIT_SLOTS]
    omega
  · intro i hi
    have hi2 : i < (slot.submitted_nr + 255) % 256 := hi
    have hi3 : i < slot.submitted_nr - 1 := by omega
    show Function.update slot.submitted (jmPos slot.submitted_head) none
        (jmPos (jmMask (slot.submitted_head + 1) + i)) ≠ none
    have hposeq : jmPos (jmMask (slot.submitted_head + 1) + i) =
        jmPos (slot.submitted_head + (i + 1)) := by
      apply Fin.ext
      rw [jmPos_val, jmPos_val, jmMask_eq_mod, Nat.mod_add_mod]
      omega
    rw [hposeq]
    have hne : jmPos (slot.submitted_head + (i + 1)) ≠
        jmPos slot.submitted_head := by
      intro hcon
      have hv := congrArg Fin.val hcon
      rw [jmPos_val, jmPos_val] at hv
      omega
    rw [Function.update_noteq hne]
    exact hinv.2 (i + 1) (by omega)

theorem runJmOps_spec (ops : List JmOp) :
    ∀ slot : kbase_jm_slot, SlotInv slot →
      capRespecting slot.submitted_nr ops = true →
      ∃ s', runJmOps ops slot = some s' ∧ SlotInv s' ∧
        s'.submitted_nr + nDeq ops = slot.submitted_nr + nEnq ops := by
  induction ops with
  | nil =>
    intro slot hinv _
    exact ⟨slot, rfl, hinv, by simp [nEnq, nDeq]⟩
  | cons op rest ih =>
    intro slot hinv hcap
    cases op with
    | enq a =>
      simp only [capRespecting, Bool.and_eq_true, decide_eq_true_eq] at hcap
      obtain ⟨s₁, he, hnr, hinv'⟩ :=
        enqueue_preserves_inv slot a hinv hcap.1
      obtain ⟨s', hr, hinv'', hcount⟩ := ih s₁ hinv' (by rw [hnr]; exact hcap.2)
      refine ⟨s', ?_, hinv'', ?_⟩
      · simp only [runJmOps, he, Option.some_bind]
        exact hr
      · simp only [nDeq, nEnq]
        omega
    | deqFront =>
      simp only [capRespecting, Bool.and_eq_true, decide_eq_true_eq] at hcap
      obtain ⟨a, s₁, hd, hnr, hinv'⟩ :=
        dequeue_front_preserves_inv slot hinv hcap.1
      obtain ⟨s', hr, hinv'', hcount⟩ := ih s₁ hinv' (by rw [hnr]; exact hcap.2)
      refine ⟨s', ?_, hinv'', ?_⟩
      · simp only [runJmOps, hd, Option.some_bind]
        exact hr
      · simp only [nDeq, nEnq]
        have h1 := hcap.1
        omega

/-- Claim C8: for every sequence of enqueue / front-dequeue operations started
from an initialized slot that respects capacity (never enqueue at
`BASE_JM_SUBMIT_SLOTS` atoms, never dequeue at 0), every operation succeeds,
`kbasep_jm_nr_jobs_submitted` on the final state equals the number of
enqueues minus the number of dequeues, and never exceeds
`BASE_JM_SUBMIT_SLOTS`. -/
theorem nr_jobs_submitted_counts (hw : Bool) (s0 : kbase_jm_slot)
    (ops : List JmOp) (hcap : capRespecting 0 ops = true) :
    ∃ s', runJmOps ops (kbasep_jm_init_submit_slot hw s0) = some s' ∧
      kbasep_jm_nr_jobs_submitted s' = nEnq ops - nDeq ops ∧
      kbasep_jm_nr_jobs_submitted s' ≤ BASE_JM_SUBMIT_SLOTS := by
  have hinv : SlotInv (kbasep_jm_init_submit_slot hw s0) := by
    constructor
    · show (0 : Nat) ≤ BASE_JM_SUBMIT_SLOTS
      simp [BASE_JM_SUBMIT_SLOTS]
    · intro i hi
      exact absurd hi (by simp [kbasep_jm_init_submit_slot])
  obtain ⟨s', h1, hinv', hcount⟩ :=
    runJmOps_spec ops (kbasep_jm_init_submit_slot hw s0) hinv hcap
  refine ⟨s', h1, ?_, ?_⟩
  · have h0 : (kbasep_jm_init_submit_slot hw s0).submitted_nr = 0 := rfl
    rw [h0] at hcount
    unfold kbasep_jm_nr_jobs_submitted
    omega
  · unfold kbasep_jm_nr_jobs_submitted
    exact hinv'.1

theorem nr_jobs_submitted_counts_witness :
    capRespecting 0 exOps = true ∧
    (runJmOps exOps (kbasep_jm_init_submit_slot false exSlotStale)).map
        kbasep_jm_nr_jobs_submitted = some (nEnq exOps - nDeq exOps) := by
  refine ⟨by decide, ?_⟩
  obtain ⟨s', h1, h2, _⟩ :=
    nr_jobs_submitted_counts false exSlotStale exOps (by decide)
  rw [h1, Option.map_some', h2]

/-- Claim C10: initialization sets `submitted_head` to 0, and every queue
operation preserves `submitted_head ∈ [0, BASE_JM_SUBMIT_SLOTS)`: enqueue,
tail-dequeue and peek do not write `submitted_head` (peek changes nothing at
all), and front-dequeue masks the advanced head back into range. -/
theorem submit_slot_head_bound :
    (∀ hw s, (kbasep_jm_init_submit_slot hw s).submitted_head = 0) ∧
    (∀ s a s₁, kbasep_jm_enqueue_submit_slot s a = some s₁ →
      s₁.submitted_head = s.submitted_head) ∧
    (∀ s, (kbasep_jm_dequeue_tail_submit_slot s).2.submitted_head =
      s.submitted_head) ∧
    (∀ s i v s₁, kbasep_jm_peek_idx_submit_slot s i = some (v, s₁) →
      s₁ = s) ∧
    (∀ s a s₁, kbasep_jm_dequeue_submit_slot s = some (a, s₁) →
      s₁.submitted_head < BASE_JM_SUBMIT_SLOTS) := by
  refine ⟨fun hw s => rfl, ?_, fun s => rfl, ?_, ?_⟩
  · intro s a s₁ h
    unfold kbasep_jm_enqueue_submit_slot at h
    by_cases hlt : s.submitted_nr < BASE_JM_SUBMIT_SLOTS
    · simp only [hlt, if_true, Option.some_inj] at h
      rw [← h]
    · simp [hlt] at h
  · intro s i v s₁ h
    unfold kbasep_jm_peek_idx_submit_slot at h
    by_cases hlt : i < BASE_JM_SUBMIT_SLOTS
    · simp only [hlt, if_true, Option.some_inj, Prod.mk.injEq] at h
      exact h.2.symm
    · simp [hlt] at h
  · intro s a s₁ h
    unfold kbasep_jm_dequeue_submit_slot at h
    cases hm : s.submitted (jmPos s.submitted_head) with
    | none =>
      rw [hm] at h
      exact absurd h (by simp)
    | some k =>
      rw [hm] at h
      simp only [Option.some_inj, Prod.mk.injEq] at h
      rw [← h.2]
      exact (jmPos (s.submitted_head + 1)).isLt

theorem submit_slot_head_bound_witness :
    (kbasep_jm_init_submit_slot true exSlotStale).submitted_head = 0 ∧
    exSlotEnq5.submitted_head = exSlotEmpty.submitted_head ∧
    (kbasep_jm_dequeue_tail_submit_slot exSlotStale).2.submitted_head =
      exSlotStale.submitted_head ∧
    (kbasep_jm_peek_idx_submit_slot exSlotOne 1).map (fun p => p.2) =
      some exSlotOne ∧
    exSlotStaleDeq.submitted_head < BASE_JM_SUBMIT_SLOTS := by
  refine ⟨submit_slot_head_bound.1 true exSlotStale,
          submit_slot_head_bound.2.1 exSlotEmpty 5 exSlotEnq5 rfl,
          submit_slot_head_bound.2.2.1 exSlotStale, ?_,
          submit_slot_head_bound.2.2.2.2 exSlotStale 7 exSlotStaleDeq rfl⟩
  have hp : kbasep_jm_peek_idx_submit_slot exSlotOne 1 =
      some (some 4, exSlotOne) := by decide
  have h4 : (some 4, exSlotOne).2 = exSlotOne :=
    submit_slot_head_bound.2.2.2.1 exSlotOne 1 (some 4) exSlotOne hp
  rw [hp, Option.map_some', h4]
